import Mathlib

/-!
Verification of the segmentation-and-metadata-consistency engine of
`segment_audio.py` (drone-audio-classification).

The Python source is shallowly embedded: pure helper functions become Lean
functions over `Int`/`String`/`List`; the metadata file and the output
directory become explicit values threaded through the operations; the
interactive multi-part loop of `main` becomes a recursive function over the
list of strings the driver would type.  String scanning is done over
`List Char` so that every definition evaluates by kernel reduction.
-/

namespace SegmentAudio

/-! ### Character-list string helpers (models of Python `str` operations) -/

/-- Model of Python `str.__contains__` (substring test) over char lists. -/
def containsSub (pat : List Char) : List Char → Bool
  | [] => pat.isEmpty
  | c :: t => pat.isPrefixOf (c :: t) || containsSub pat t

/-- Model of Python `str.split(sep)` for a one-character separator:
always returns a non-empty list of (possibly empty) pieces. -/
def splitOnChar (c : Char) : List Char → List (List Char)
  | [] => [[]]
  | x :: t =>
    match splitOnChar c t with
    | [] => [[x]]
    | h :: rest => if x = c then [] :: h :: rest else (x :: h) :: rest

/-- Split at the first occurrence of `sep`, if any. -/
def splitFirst (sep : List Char) : List Char → Option (List Char × List Char)
  | [] => if sep.isEmpty then some ([], []) else none
  | c :: t =>
    if sep.isPrefixOf (c :: t) then some ([], (c :: t).drop sep.length)
    else (splitFirst sep t).map (fun p => (c :: p.1, p.2))

/-- Model of Python `str.strip('/')`. -/
def stripSlashes (l : List Char) : List Char :=
  ((l.dropWhile (· = '/')).reverse.dropWhile (· = '/')).reverse

/-- Model of Python `int(s)` for base 10: strips surrounding whitespace,
accepts an optional sign followed by at least one decimal digit, and raises
`ValueError` (here: `none`) otherwise.  (CPython additionally allows
underscore digit grouping and non-ASCII digits; the repository never feeds
it such strings.) -/
def pythonIntDigits : List Char → Option Int
  | [] => none
  | cs => if cs.all Char.isDigit
      then some (cs.foldl (fun n c => n * 10 + (Int.ofNat (c.toNat - '0'.toNat))) 0)
      else none

def pythonInt (s : List Char) : Option Int :=
  let t := (s.dropWhile Char.isWhitespace).reverse.dropWhile Char.isWhitespace |>.reverse
  match t with
  | '-' :: rest => (pythonIntDigits rest).map (fun n => -n)
  | '+' :: rest => pythonIntDigits rest
  | cs => pythonIntDigits cs

/-! ### Configuration constants (`CONFIG` section of the source) -/

def SEG_LEN : Int := 2000
def STEP : Int := 1500

/-! ### `parse_time_arg` -/

/-- The body of the `try:` block of `parse_time_arg`: converts a
`minutes.seconds` string to milliseconds, raising `ValueError` on a bad
component or a tuple-unpack mismatch. -/
def parse_time_argE (arg : String) : Except String Int :=
  if arg.data.contains '.' then
    match splitOnChar '.' arg.data with
    | [mins, secs] =>
      match pythonInt mins, pythonInt secs with
      | some m, some s => .ok ((m * 60 + s) * 1000)
      | _, _ => .error "ValueError"
    | _ => .error "ValueError"
  else
    match pythonInt arg.data with
    | some m => .ok (m * 60 * 1000)
    | none => .error "ValueError"

/-- Model of `parse_time_arg`: the `except:` clause turns every failure into `None`. -/
def parse_time_arg (arg : String) : Option Int :=
  match parse_time_argE arg with
  | .ok n => some n
  | .error _ => none

/-- The argument validation in `main` (lines 165-173): both times must
parse and `start < end`; nothing else is checked. -/
def validate_time_args (a b : String) : Option (Int × Int) :=
  match parse_time_arg a, parse_time_arg b with
  | some s, some e => if s ≥ e then none else some (s, e)
  | _, _ => none

/-! ### `is_overlap` -/

/-- An entry of `processed_parts`: `(start_ms, end_ms, segment_count)`. -/
abbrev Part := Int × Int × Nat

/-- Model of `is_overlap(new_start, new_end, processed_parts)`. -/
def is_overlap (newStart newEnd : Int) (parts : List Part) : Bool :=
  parts.any (fun p => !(decide (newEnd ≤ p.1) || decide (newStart ≥ p.2.1)))

/-! ### The windower of `segment_wav` -/

/-- Fuel-driven model of Python `range(a, b, st)` for a positive step
(structural recursion so that the kernel can evaluate it). -/
def pyRangeAux (st : Int) : Nat → Int → Int → List Int
  | 0, _, _ => []
  | fuel + 1, a, b => if a < b then a :: pyRangeAux st fuel (a + st) b else []

/-- Python `range(a, b, st)` for `0 < st` (the only case the source uses;
`st ≤ 0` is mapped to the empty list). -/
def pyRange (a b st : Int) : List Int :=
  if 0 < st then pyRangeAux st (b - a).toNat a b else []

/-- The clamping at the top of `segment_wav`:
`if end_ms is None or end_ms > len(audio): end_ms = len(audio)`. -/
def effectiveEnd (totalLen : Int) (endMs : Option Int) : Int :=
  match endMs with
  | none => totalLen
  | some e => if e > totalLen then totalLen else e

/-- The clip starts produced by `segment_wav`, generalized over the segment
length and step so that the spec claim (which quantifies over both) can be
stated; the source instantiates them with `SEG_LEN` and `STEP`. -/
def segmentStartsP (segLen stepMs totalLen startMs : Int) (endMs : Option Int) : List Int :=
  pyRange startMs (effectiveEnd totalLen endMs - segLen) stepMs

/-- The clip starts of `segment_wav` itself:
`range(start_ms, end_ms - SEG_LEN, STEP)`. -/
def segmentStarts (totalLen startMs : Int) (endMs : Option Int) : List Int :=
  segmentStartsP SEG_LEN STEP totalLen startMs endMs

/-- Value of `len(segment_wav(...))`: the number of clips emitted. -/
def numClips (totalLen startMs : Int) (endMs : Option Int) : Nat :=
  (segmentStarts totalLen startMs endMs).length

/-! ### The metadata store -/

/-- The JSON values that occur in a metadata record.  The only non-integer
number the source ever writes is `duration = SEG_LEN/1000 = 2.0`, an exact
integer, so numbers are modelled as integers. -/
inductive JValue where
  | null
  | str (s : String)
  | num (v : Int)
deriving DecidableEq

/-- A metadata record, as the ordered key/value pairs of the JSON object
the source builds (key presence matters: an absent key and an explicit
`null` are different things). -/
abbrev Entry := List (String × JValue)

/-- The observable states of `metadata.json`: missing, present but of size
zero, present but not valid JSON, or a JSON array of records. -/
inductive FileContent where
  | missing
  | empty
  | corrupt
  | records (rs : List Entry)
deriving DecidableEq

/-- Model of `safe_load_metadata`, kept in `Except` form to record that the
`try/except json.JSONDecodeError` bracket catches the only error
`json.load` raises on an unparsable file.  Result: the loaded records and
whether the corruption warning was printed. -/
def safe_load_metadataE (f : FileContent) : Except String (List Entry × Bool) :=
  match f with
  | .missing => .ok ([], false)
  | .empty => .ok ([], false)
  | .corrupt => .ok ([], true)
  | .records rs => .ok (rs, false)

/-- The value `safe_load_metadata` returns to its caller. -/
def safe_load_metadata (f : FileContent) : List Entry :=
  match safe_load_metadataE f with
  | .ok (d, _) => d
  | .error _ => []

/-- Model of `update_metadata(entries)`: load, extend, rewrite the whole file. -/
def update_metadata (f : FileContent) (entries : List Entry) : FileContent :=
  .records (safe_load_metadata f ++ entries)

/-- The record built by the labeling loop of `main` (lines 257-307) for one
segment, given the label decisions arriving from the operator:
`dronePresent` is the y/n answer, `quality` the 1-5 answer used only in the
drone branch, `subtypeChoice` the resolved subtype used only in the
no-drone branch. -/
def mkEntry (fname : String) (dronePresent : Bool) (motorLabel : String)
    (quality : Nat) (subtypeChoice : String) (sourceType : String) (src : String) : Entry :=
  let binaryLabel := if dronePresent then "drone" else "no_drone"
  let motorLbl : JValue := if dronePresent then .str motorLabel else .null
  let qual : Option Nat := if dronePresent then some quality else none
  let subty : JValue := if dronePresent then .null else .str subtypeChoice
  [("filename", .str fname),
   ("binary_label", .str binaryLabel),
   ("motor_label", motorLbl),
   ("source", .str sourceType),
   ("youtube_url", if sourceType == "youtube" then .str src else .null),
   ("duration", .num (SEG_LEN / 1000))]  -- 2000/1000 = 2.0, exact
  ++ (match qual with
      | some q => [("quality", .num q)]
      | none => [])
  ++ (if binaryLabel == "no_drone" then [("subtype", subty)] else [])

/-! ### `extract_youtube_id` and `delete_existing_entries` -/

/-- The fragment of `urllib.parse.urlparse` these URLs exercise: splits
`scheme://netloc/path?query` into `(netloc, path, query)`. -/
def splitUrl (url : String) : List Char × List Char × List Char :=
  match splitFirst "://".data url.data with
  | none => ([], url.data, [])
  | some (_, rest) =>
    match splitFirst "/".data rest with
    | none =>
      match splitFirst "?".data rest with
      | none => (rest, [], [])
      | some (nl, q) => (nl, [], q)
    | some (nl, after) =>
      match splitFirst "?".data ('/' :: after) with
      | none => (nl, '/' :: after, [])
      | some (p, q) => (nl, p, q)

/-- Model of `parse_qs(query).get("v", ["ytclip"])[0]`. -/
def queryParamV (query : List Char) : Option (List Char) :=
  ((splitOnChar '&' query).filterMap (fun p =>
    match splitOnChar '=' p with
    | k :: v :: _ => if k = "v".data then some v else none
    | _ => none)).head?

/-- Model of `extract_youtube_id`. -/
def extract_youtube_id (url : String) : String :=
  let (netloc, path, query) := splitUrl url
  if containsSub "youtu.be".data netloc then
    String.mk (stripSlashes path)
  else if containsSub "youtube.com".data netloc then
    if containsSub "watch".data path then
      String.mk ((queryParamV query).getD "ytclip".data)
    else if containsSub "shorts".data path then
      String.mk ((splitOnChar '/' path).getLastD [])
    else "ytclip"
  else "ytclip"

/-- Model of `name.startswith(stem)`. -/
def strStartsWith (name stem : String) : Bool :=
  stem.data.isPrefixOf name.data

/-- Model of `delete_existing_entries(url)`.  State: the metadata file and the
(basenames of the) files under `BASE_OUT_DIR`.  `unlinkOk` says which
`unlink` calls succeed; a failing one is caught, logged and skipped
(best-effort deletion), so a file survives iff it does not start with the
derived video id or its unlink failed. -/
def delete_existing_entries (url : String) (store : FileContent)
    (files : List String) (unlinkOk : String → Bool) : FileContent × List String :=
  let vid := extract_youtube_id url
  let data := safe_load_metadata store
  let newData := data.filter (fun d => !(decide (d.lookup "youtube_url" = some (.str url))))
  let newFiles := files.filter (fun n => !(strStartsWith n vid && unlinkOk n))
  (.records newData, newFiles)

/-- Two distinct YouTube URLs whose derived video id is the same `"abc"`:
the `youtu.be` short form and the `watch?v=` long form. -/
def exampleUrlA : String := "https://youtu.be/abc"

def exampleUrlB : String := "https://www.youtube.com/watch?v=abc"

def exampleEntryA : Entry :=
  mkEntry "abc_4_motors_000.wav" true "4_motors" 3 "wind" "youtube" exampleUrlA

def exampleEntryB : Entry :=
  mkEntry "abc_4_motors_001.wav" true "4_motors" 4 "wind" "youtube" exampleUrlB

/-- Deleting `exampleUrlA` from a store that also holds a record for
`exampleUrlB`, with both sources' clip files on disk and every unlink
succeeding. -/
def exampleDelete : FileContent × List String :=
  delete_existing_entries exampleUrlA (.records [exampleEntryA, exampleEntryB])
    ["abc_4_motors_000.wav", "abc_4_motors_001.wav"] (fun _ => true)

/-! ### The next-index scan of `main` (lines 238-244) -/

/-- Whether a basename matches the glob pattern `{pb}_*.wav`. -/
def wavGlobMatch (pb name : String) : Bool :=
  strStartsWith name (pb ++ "_") && ".wav".data.isSuffixOf name.data
    && decide (pb.data.length + 5 ≤ name.data.length)

/-- Model of `pathlib.Path.stem`: the basename minus its final suffix
(everything from the last dot on), when it has one. -/
def pathStem (name : String) : List Char :=
  match splitOnChar '.' name.data with
  | [] => name.data
  | [whole] => whole
  | parts => String.intercalate "." (parts.dropLast.map String.mk) |>.data

/-- Value of `int(f.stem.split('_')[-1])` for one file, `none` meaning the
uncaught `ValueError`. -/
def parseIdx (name : String) : Option Int :=
  pythonInt ((splitOnChar '_' (pathStem name)).getLastD [])

/-- Left-to-right evaluation of the list comprehension
`[int(f.stem.split('_')[-1]) for f in existing_files]`: the first
`ValueError` (a `none` from `g`) aborts the whole list. -/
def listMapOpt {α β : Type} (g : α → Option β) : List α → Option (List β)
  | [] => some []
  | a :: t =>
    match g a with
    | none => none
    | some b =>
      match listMapOpt g t with
      | none => none
      | some bs => some (b :: bs)

/-- The start-index computation: glob for `{prefix_base}_*.wav`, and if any
file matches, take `max(int(f.stem.split('_')[-1]) for f) + 1`, else `0`.
`none` models the crash when some matching name has a non-numeric last
component. -/
def next_start_index (files : List String) (pb : String) : Option Int :=
  let ex := files.filter (wavGlobMatch pb)
  match ex with
  | [] => some 0
  | _ =>
    match listMapOpt parseIdx ex with
    | some idxs =>
      match idxs with
      | [] => some 0
      | i :: rest => some (rest.foldl max i + 1)
    | none => none

/-! ### The multi-part session loop of `main` (lines 213-345)

The loop is modelled as a recursive function over the list of strings the
driver types (each `input()` consumes one, already `.strip().lower()`
normalized where the source normalizes).  Labeling prompts are out of core
scope and elided; yt-dlp/pydub are elided; the function returns the list of
`(start, end)` ranges that were actually windowed by `segment_wav`. -/

inductive Phase where
  | top
  | prompt

def sessionGo (totalLen : Int) :
    Phase → Option (Int × Int) → List Part → List (Int × Int) → List String → List (Int × Int)
  | .top, mode, ps, acc, evs =>
    match mode with
    | none =>
      -- start_ms and end_ms are both None: process_whole_video = True;
      -- window [0, len(audio)] and break at line 312.
      acc ++ [(0, totalLen)]
    | some (pS, pE) =>
      if is_overlap pS pE ps then
        -- lines 224-236: re-prompt (two inputs per attempt) until a valid,
        -- non-overlapping range arrives; this inner loop has no escape.
        match evs with
        | a :: b :: rest =>
          match parse_time_arg a, parse_time_arg b with
          | some s, some e =>
            if decide (s ≥ e) || is_overlap s e ps then
              sessionGo totalLen .top mode ps acc rest
            else
              -- window (s, e); note start_ms/end_ms (mode) are not updated.
              let ps' := ps ++ [(s, e, numClips totalLen s (some e))]
              let acc' := acc ++ [(s, e)]
              match rest with
              | [] => acc'
              | ans :: rest2 =>
                if ans = "y" then sessionGo totalLen .prompt mode ps' acc' rest2 else acc'
          | _, _ => sessionGo totalLen .top mode ps acc rest
        | _ => acc
      else
        -- window (pS, pE), append to processed_parts, then the
        -- "another part?" question (any answer other than "y" breaks).
        let ps' := ps ++ [(pS, pE, numClips totalLen pS (some pE))]
        let acc' := acc ++ [(pS, pE)]
        match evs with
        | [] => acc'
        | ans :: rest =>
          if ans = "y" then sessionGo totalLen .prompt mode ps' acc' rest else acc'
  | .prompt, mode, ps, acc, evs =>
    -- lines 330-345: ask for a new range, or 'n' to stop -- which sets
    -- start_ms = end_ms = None and falls through to the top of the loop.
    match evs with
    | [] => acc
    | sNew :: rest =>
      if sNew = "n" then sessionGo totalLen .top none ps acc rest
      else
        match rest with
        | [] => acc
        | eNew :: rest2 =>
          match parse_time_arg sNew, parse_time_arg eNew with
          | some s, some e =>
            if decide (s ≥ e) || is_overlap s e ps then
              sessionGo totalLen .prompt mode ps acc rest2
            else
              sessionGo totalLen .top (some (s, e)) ps acc rest2
          | _, _ => sessionGo totalLen .prompt mode ps acc rest2

/-- One run of the multi-part loop: `initMode` is the validated
`(start_ms, end_ms)` from the command line (or `none` for the whole-video
path), `script` the driver's subsequent answers. -/
def runSession (totalLen : Int) (initMode : Option (Int × Int)) (script : List String) :
    List (Int × Int) :=
  sessionGo totalLen .top initMode [] [] script

/-! ### Lemmas about the windower -/

theorem pyRangeAux_mem {st : Int} (hst : 0 < st) :
    ∀ (fuel : Nat) (a b : Int), (b - a).toNat ≤ fuel →
      ∀ x : Int, x ∈ pyRangeAux st fuel a b ↔ ∃ i : ℕ, x = a + i * st ∧ x < b := by
  intro fuel
  induction fuel with
  | zero =>
    intro a b hfuel x
    have hba : b ≤ a := by omega
    simp only [pyRangeAux, List.not_mem_nil, false_iff]
    rintro ⟨i, rfl, hx⟩
    have hnn : (0 : Int) ≤ (i : Int) * st := mul_nonneg (Int.ofNat_nonneg i) hst.le
    omega
  | succ fuel ih =>
    intro a b hfuel x
    simp only [pyRangeAux]
    by_cases hab : a < b
    · rw [if_pos hab]
      have hrec := ih (a + st) b (by omega) x
      simp only [List.mem_cons, hrec]
      constructor
      · rintro (rfl | ⟨i, rfl, hb⟩)
        · exact ⟨0, by simp, hab⟩
        · exact ⟨i + 1, by push_cast; ring, hb⟩
      · rintro ⟨i, rfl, hb⟩
        cases i with
        | zero => left; simp
        | succ i => right; exact ⟨i, by push_cast; ring, hb⟩
    · rw [if_neg hab]
      simp only [List.not_mem_nil, false_iff]
      rintro ⟨i, rfl, hx⟩
      have hnn : (0 : Int) ≤ (i : Int) * st := mul_nonneg (Int.ofNat_nonneg i) hst.le
      omega

theorem pyRangeAux_length {st : Int} (hst : 0 < st) :
    ∀ (fuel : Nat) (a b : Int), (b - a).toNat ≤ fuel →
      (pyRangeAux st fuel a b).length = (b - a + st - 1).toNat / st.toNat := by
  intro fuel
  induction fuel with
  | zero =>
    intro a b hfuel
    simp only [pyRangeAux, List.length_nil]
    refine (Nat.div_eq_of_lt ?_).symm
    omega
  | succ fuel ih =>
    intro a b hfuel
    simp only [pyRangeAux]
    by_cases hab : a < b
    · rw [if_pos hab]
      simp only [List.length_cons, ih (a + st) b (by omega)]
      have harg : (b - (a + st) + st - 1).toNat = (b - a - 1).toNat := by omega
      have hsplit : (b - a + st - 1).toNat = (b - a - 1).toNat + st.toNat := by omega
      rw [harg, hsplit, Nat.add_div_right _ (by omega)]
    · rw [if_neg hab]
      simp only [List.length_nil]
      refine (Nat.div_eq_of_lt ?_).symm
      omega

theorem pyRange_mem {a b st x : Int} (hst : 0 < st) :
    x ∈ pyRange a b st ↔ ∃ i : ℕ, x = a + i * st ∧ x < b := by
  rw [pyRange, if_pos hst]
  exact pyRangeAux_mem hst _ a b le_rfl x

theorem pyRange_length {a b st : Int} (hst : 0 < st) :
    (pyRange a b st).length = (b - a + st - 1).toNat / st.toNat := by
  rw [pyRange, if_pos hst]
  exact pyRangeAux_length hst _ a b le_rfl

/-! ### Claim C1 -/

/-- C1 (amended): the windower emits exactly the starts
`range.start_ms + i * step_ms` for which `start + segment_length_ms`
is strictly below `effective_end = min(range.end_ms, total_length_ms)`
(an exact-fit final window is dropped); hence for
`segment_length_ms = step_ms` it produces
`(effective_end - start - 1).toNat / step` clips, and for total length
10000 ms, segment 2000 ms, step 1500 ms, range [0, 10000) the starts are
0, 1500, 3000, 4500, 6000, 7500 (6 clips). -/
theorem claim_C1_windower :
    (∀ (segLen stepMs totalLen startMs : Int) (endMs : Option Int), 0 < stepMs →
      (∀ x : Int, x ∈ segmentStartsP segLen stepMs totalLen startMs endMs ↔
        ∃ i : ℕ, x = startMs + i * stepMs ∧ x + segLen < effectiveEnd totalLen endMs)
      ∧ (segLen = stepMs →
        (segmentStartsP segLen stepMs totalLen startMs endMs).length =
          (effectiveEnd totalLen endMs - startMs - 1).toNat / stepMs.toNat))
    ∧ segmentStarts 10000 0 (some 10000) = [0, 1500, 3000, 4500, 6000, 7500] := by
  constructor
  · intro segLen stepMs totalLen startMs endMs hst
    constructor
    · intro x
      rw [segmentStartsP, pyRange_mem hst]
      exact exists_congr fun i => and_congr_right fun _ => by omega
    · rintro rfl
      rw [segmentStartsP, pyRange_length hst]
      congr 1
      omega
  · decide

/-- C1 counterexample: with segment length = step = 2000 ms and effective
end 10000 ms, the start 8000 satisfies `start + segment_length = end` yet
is not emitted, and only 4 clips are produced where the claim's
`floor((end-start)/step)` formula demands 5. -/
theorem claim_C1_counterexample :
    (segmentStartsP 2000 2000 10000 0 (some 10000)).length = 4
    ∧ (8000 : Int) + 2000 ≤ effectiveEnd 10000 (some 10000)
    ∧ (8000 : Int) ∉ segmentStartsP 2000 2000 10000 0 (some 10000) := by
  decide

/-- Witness for C1: the amended count formula evaluated at segment =
step = 2000 ms over [0, 9000). -/
theorem claim_C1_windower_witness :
    (segmentStartsP 2000 2000 9000 0 (some 9000)).length =
      (effectiveEnd 9000 (some 9000) - 0 - 1).toNat / (2000 : Int).toNat :=
  (claim_C1_windower.1 2000 2000 9000 0 (some 9000) (by decide)).2 rfl

/-! ### Claim C2 -/

/-- C2: the claim says that when the driver declines to supply another
range the run terminates without processing anything further, and that
every windowed range has passed the overlap check.  The code violates
both: on a 60000 ms source, after processing [10000, 20000) the driver
answers "y" (another part) and then "n" (stop) -- and the run, instead of
terminating, windows the whole video [0, 60000), which overlaps the
already-processed part and was never overlap-checked. -/
theorem claim_C2_decline_reprocesses_whole :
    runSession 60000 (some (10000, 20000)) ["y", "n"]
      = [(10000, 20000), (0, 60000)]
    ∧ is_overlap 0 60000 [(10000, 20000, numClips 60000 10000 (some 20000))] = true := by
  decide

/-! ### Claim C4 -/

/-- C4 counterexample: a freshly built `no_drone`/`local` record carries
the `motor_label` and `youtube_url` keys with explicit `null` values,
contradicting the claim that those keys are omitted and that no key of a
fresh record is ever `null`. -/
theorem claim_C4_counterexample :
    (mkEntry "f.wav" false "4_motors" 3 "wind" "local" "u").lookup "motor_label"
      = some .null
    ∧ (mkEntry "f.wav" false "4_motors" 3 "wind" "local" "u").lookup "binary_label"
      = some (.str "no_drone")
    ∧ (mkEntry "f.wav" false "4_motors" 3 "wind" "local" "u").lookup "youtube_url"
      = some .null
    ∧ (mkEntry "f.wav" false "4_motors" 3 "wind" "local" "u").lookup "source"
      = some (.str "local") := by
  decide

/-- C4 (amended): `quality` is present exactly on drone records and
`subtype` exactly on no-drone records (key omitted otherwise), but the
`motor_label` and `youtube_url` keys are always written, holding an
explicit `null` when `binary_label` is not drone resp. when the source is
not remote. -/
theorem claim_C4_key_presence :
    ∀ (fname : String) (dp : Bool) (ml : String) (q : Nat) (sty srcT src : String),
      ((mkEntry fname dp ml q sty srcT src).lookup "quality"
         = if dp then some (.num q) else none)
      ∧ ((mkEntry fname dp ml q sty srcT src).lookup "subtype"
         = if dp then none else some (.str sty))
      ∧ ((mkEntry fname dp ml q sty srcT src).lookup "motor_label"
         = some (if dp then .str ml else .null))
      ∧ ((mkEntry fname dp ml q sty srcT src).lookup "youtube_url"
         = some (if srcT == "youtube" then .str src else .null)) := by
  intro fname dp ml q sty srcT src
  cases dp <;> exact ⟨rfl, rfl, rfl, rfl⟩

/-! ### Claim C6 -/

/-- C6: appending `[r1, r2]` to any prior store and loading yields exactly
the prior loaded contents followed by `[r1, r2]` in order, and key-presence
semantics are preserved: a `no_drone` record has no `quality` key and a
`drone` record has no `subtype` key. -/
theorem claim_C6_roundtrip :
    (∀ (f : FileContent) (r1 r2 : Entry),
      safe_load_metadata (update_metadata f [r1, r2])
        = safe_load_metadata f ++ [r1, r2])
    ∧ (∀ (fname ml : String) (q : Nat) (sty srcT src : String),
        (mkEntry fname false ml q sty srcT src).lookup "quality" = none
        ∧ (mkEntry fname true ml q sty srcT src).lookup "subtype" = none) :=
  ⟨fun _ _ _ => rfl, fun _ _ _ _ _ _ => ⟨rfl, rfl⟩⟩

/-! ### Claim C7 -/

/-- C7: metadata load fails soft -- a missing or empty backing file loads
as the empty sequence with no warning, a corrupt file loads as the empty
sequence with the warning printed, and no state makes the load raise to
the caller. -/
theorem claim_C7_load_fails_soft :
    safe_load_metadataE .missing = .ok ([], false)
    ∧ safe_load_metadataE .empty = .ok ([], false)
    ∧ safe_load_metadataE .corrupt = .ok ([], true)
    ∧ ∀ f : FileContent, ∃ v, safe_load_metadataE f = .ok v :=
  ⟨rfl, rfl, rfl, fun f => by cases f <;> exact ⟨_, rfl⟩⟩

/-! ### Claim C10 -/

/-- C10: time-argument parsing is total (an integer or `None`, never an
uncaught error), "-2" parses to -120000 ms, "0.90" to 90000 ms, and the
caller's only range validation being `start < end`, the range
(-120000, 90000) is accepted at the interface. -/
theorem claim_C10_parse_total :
    (∀ s : String, parse_time_arg s = none ∨ ∃ n, parse_time_arg s = some n)
    ∧ parse_time_arg "-2" = some (-120000)
    ∧ parse_time_arg "0.90" = some 90000
    ∧ validate_time_args "-2" "0.90" = some (-120000, 90000) := by
  refine ⟨fun s => ?_, by decide, by decide, by decide⟩
  cases h : parse_time_arg s with
  | none => exact Or.inl rfl
  | some n => exact Or.inr ⟨n, rfl⟩

/-! ### Claim C8 -/

/-- C8: `is_overlap` reports an overlap iff, under half-open interval
semantics, the candidate range has a nonempty set intersection with some
tracked range; in particular registering [1000, 2000) after [0, 1000) is
accepted (boundary touch is not overlap) while [500, 1500) after
[0, 1000) is rejected. -/
theorem claim_C8_overlap_iff :
    (∀ (ns ne : Int) (parts : List Part), ns < ne → (∀ p ∈ parts, p.1 < p.2.1) →
      (is_overlap ns ne parts = true ↔
        ∃ p ∈ parts, (Set.Ico ns ne ∩ Set.Ico p.1 p.2.1).Nonempty))
    ∧ is_overlap 1000 2000 [(0, 1000, 3)] = false
    ∧ is_overlap 500 1500 [(0, 1000, 3)] = true := by
  refine ⟨?_, by decide, by decide⟩
  intro ns ne parts hne hp
  rw [is_overlap, List.any_eq_true]
  constructor
  · rintro ⟨p, hmem, hcond⟩
    refine ⟨p, hmem, ?_⟩
    rw [Set.Ico_inter_Ico, Set.nonempty_Ico, sup_eq_max, inf_eq_min]
    simp only [Bool.not_eq_true', Bool.or_eq_false_iff, decide_eq_false_iff_not, not_le] at hcond
    have := hp p hmem
    omega
  · rintro ⟨p, hmem, hne2⟩
    rw [Set.Ico_inter_Ico, Set.nonempty_Ico, sup_eq_max, inf_eq_min] at hne2
    refine ⟨p, hmem, ?_⟩
    simp only [Bool.not_eq_true', Bool.or_eq_false_iff, decide_eq_false_iff_not, not_le]
    omega

/-- Witness for C8: the iff applied at [500, 1500) against tracked
[0, 1000). -/
theorem claim_C8_witness :
    is_overlap 500 1500 [(0, 1000, 3)] = true ↔
      ∃ p ∈ [((0 : Int), (1000 : Int), (3 : Nat))],
        (Set.Ico (500 : Int) 1500 ∩ Set.Ico p.1 p.2.1).Nonempty :=
  claim_C8_overlap_iff.1 500 1500 [(0, 1000, 3)] (by decide) (by decide)

/-! ### Claim C9 -/

/-- C9: delete-and-reprocess is idempotent -- running
`delete_existing_entries` a second time for the same URL on the state the
first call produced raises no error, removes zero records and leaves both
the store and the files unchanged. -/
theorem claim_C9_delete_idempotent :
    ∀ (url : String) (store : FileContent) (files : List String) (unlinkOk : String → Bool),
      delete_existing_entries url
          (delete_existing_entries url store files unlinkOk).1
          (delete_existing_entries url store files unlinkOk).2 unlinkOk
        = delete_existing_entries url store files unlinkOk := by
  intro url store files unlinkOk
  simp [delete_existing_entries, safe_load_metadata, safe_load_metadataE, List.filter_filter]

/-! ### Claim C3 -/

/-- C3 counterexample: `exampleUrlA` and `exampleUrlB` are different
source identifiers deriving the same stem "abc"; deleting `exampleUrlA`
leaves `exampleEntryB` in the store (its URL differs) yet removes its file
`abc_4_motors_001.wav` (its name starts with the stem), so after the
completed cycle a remaining record names a missing file. -/
theorem claim_C3_counterexample :
    extract_youtube_id exampleUrlA = "abc"
    ∧ extract_youtube_id exampleUrlB = "abc"
    ∧ safe_load_metadata exampleDelete.1 = [exampleEntryB]
    ∧ exampleEntryB.lookup "filename" = some (.str "abc_4_motors_001.wav")
    ∧ exampleDelete.2 = [] := by
  decide

/-- C3 (amended): after a completed delete-and-reprocess cycle no record
whose `youtube_url` equals the given URL remains in the store, and -- when
every stem-matching unlink succeeds -- no file whose name starts with the
derived stem remains on disk, while every file not starting with the stem
survives; so store and filesystem agree provided no remaining record's
filename starts with the deleted source's stem (files are matched by
derived stem, records by exact URL, so two URLs deriving the same stem can
still diverge). -/
theorem claim_C3_delete_consistency :
    ∀ (url : String) (store : FileContent) (files : List String) (unlinkOk : String → Bool),
      (∀ e ∈ safe_load_metadata (delete_existing_entries url store files unlinkOk).1,
          ¬e.lookup "youtube_url" = some (.str url))
      ∧ ((∀ n ∈ files, strStartsWith n (extract_youtube_id url) = true → unlinkOk n = true) →
          ∀ n ∈ (delete_existing_entries url store files unlinkOk).2,
            strStartsWith n (extract_youtube_id url) = false)
      ∧ (∀ fn ∈ files, strStartsWith fn (extract_youtube_id url) = false →
          fn ∈ (delete_existing_entries url store files unlinkOk).2) := by
  intro url store files unlinkOk
  refine ⟨?_, ?_, ?_⟩
  · intro e he
    simp only [delete_existing_entries, safe_load_metadata, safe_load_metadataE,
      List.mem_filter, Bool.not_eq_true', decide_eq_false_iff_not] at he
    exact he.2
  · intro hok n hn
    simp only [delete_existing_entries, List.mem_filter, Bool.not_eq_true',
      Bool.and_eq_false_iff] at hn
    rcases hn.2 with hs | hfail
    · exact hs
    · cases hs2 : strStartsWith n (extract_youtube_id url) with
      | false => rfl
      | true => exact absurd (hok n hn.1 hs2) (by simp [hfail])
  · intro fn hfn hs
    simp only [delete_existing_entries, List.mem_filter]
    exact ⟨hfn, by simp [hs]⟩

/-- Witness for C3: a file whose name does not start with the derived stem
survives the delete. -/
theorem claim_C3_witness :
    "zzz.wav" ∈ (delete_existing_entries "https://youtu.be/abc"
      (.records []) ["zzz.wav"] (fun _ => true)).2 :=
  (claim_C3_delete_consistency "https://youtu.be/abc" (.records [])
    ["zzz.wav"] (fun _ => true)).2.2 "zzz.wav" (by decide) (by decide)

/-! ### Claim C5 -/

/-- If `g` succeeds on every element, the comprehension succeeds. -/
theorem listMapOpt_isSome {α β : Type} (g : α → Option β) :
    ∀ l : List α, (∀ x ∈ l, (g x).isSome = true) → (listMapOpt g l).isSome = true := by
  intro l
  induction l with
  | nil => intro _; rfl
  | cons a t ih =>
    intro h
    obtain ⟨b, hb⟩ := Option.isSome_iff_exists.mp (h a (List.mem_cons_self a t))
    obtain ⟨bs, hbs⟩ :=
      Option.isSome_iff_exists.mp (ih (fun x hx => h x (List.mem_cons_of_mem _ hx)))
    simp [listMapOpt, hb, hbs]

/-- C5 counterexample: `vid_fast.wav` matches the glob `vid_*.wav` but its
last underscore component is not numeric, so `int(...)` raises and the
scan crashes instead of ignoring the file. -/
theorem claim_C5_counterexample :
    next_start_index ["vid_fast.wav"] "vid" = none := by
  decide

/-- C5 (amended): files that do not match the glob `{prefix}_{*}.wav` are
ignored (with none matching, the scan returns 0), and whenever the last
underscore component of every matching file's stem parses as an integer
the scan returns a value; but a matching file with a non-numeric last
component makes the scan fail with `ValueError`, so it is not total.  The
spec's own gap example still holds: `pre_000.wav, pre_002.wav` gives 3. -/
theorem claim_C5_next_index :
    (∀ (files : List String) (pb : String),
      (files.filter (wavGlobMatch pb) = [] → next_start_index files pb = some 0)
      ∧ ((∀ f ∈ files.filter (wavGlobMatch pb), (parseIdx f).isSome = true) →
          (next_start_index files pb).isSome = true))
    ∧ next_start_index ["pre_000.wav", "pre_002.wav"] "pre" = some 3 := by
  refine ⟨?_, by decide⟩
  intro files pb
  constructor
  · intro h
    simp only [next_start_index, h]
  · intro h
    simp only [next_start_index]
    cases hex : files.filter (wavGlobMatch pb) with
    | nil => simp
    | cons a t =>
      rw [hex] at h
      obtain ⟨idxs, hidxs⟩ :=
        Option.isSome_iff_exists.mp (listMapOpt_isSome parseIdx (a :: t) h)
      rw [hidxs]
      cases idxs <;> simp

/-- Witness for C5: a directory with no matching file yields index 0. -/
theorem claim_C5_witness :
    next_start_index ["zzz.txt"] "pre" = some 0 :=
  (claim_C5_next_index.1 ["zzz.txt"] "pre").1 (by decide)

end SegmentAudio
